import Mathlib

/-
Verification development for the Mycelium repository (OAuth delegation
handlers, RFC 8628 device-code CLI flow, mock auth server, CLI token
storage).

Shallow embedding notes:
 - The JavaScript builtins `JSON.stringify` / `JSON.parse` are embedded as an
   executable printer/parser pair over an inductive `Json` type, matching the
   JSON grammar JavaScript uses (string escaping with \", \\, \b, \t, \n, \f,
   \r and \u00XX for other control characters; no spaces between tokens in
   stringify; whitespace tolerated by the parser).  The parser implements
   integer numbers only; every value this repository serializes is built from
   strings, arrays and objects (`numFree` below), so the restriction does not
   affect any theorem.
 - `URLSearchParams` values are modelled as association lists of decoded
   key/value pairs; `get` returns the first match, `set` overwrites.
 - `fetch` and `res.json()` results are oracles: a `FetchResult` value per
   call site (rejected promise, non-2xx response, 2xx with unparsable body,
   or 2xx with a parsed body).
-/

namespace Mycelium

-- ===========================================================================
-- JSON values (embedding of the JavaScript JSON data model)
-- ===========================================================================

inductive Json where
  | null
  | bool (b : Bool)
  | num (n : Int)
  | str (s : String)
  | arr (elems : List Json)
  | obj (members : List (String × Json))
deriving Repr, Inhabited

/-- Lower-case hex digit, as produced by JavaScript's JSON.stringify. -/
def hexDigitChar (n : Nat) : Char :=
  if n < 10 then Char.ofNat (48 + n) else Char.ofNat (87 + n)

/-- Escaping of one character inside a JSON string literal, exactly as
JSON.stringify does it: quote, backslash, the five short escapes, and
\u00XX for the remaining control characters. -/
def escapeChar (c : Char) : List Char :=
  if c = '"' then ['\\', '"']
  else if c = '\\' then ['\\', '\\']
  else if c = Char.ofNat 8 then ['\\', 'b']
  else if c = '\t' then ['\\', 't']
  else if c = '\n' then ['\\', 'n']
  else if c = Char.ofNat 12 then ['\\', 'f']
  else if c = '\r' then ['\\', 'r']
  else if c.toNat < 32 then
    ['\\', 'u', '0', '0', hexDigitChar (c.toNat / 16), hexDigitChar (c.toNat % 16)]
  else [c]

/-- Rendering of a JSON string literal (both delimiting quotes included). -/
def renderString (s : String) : List Char :=
  '"' :: (s.data.flatMap escapeChar ++ ['"'])

mutual
/-- Rendering of a JSON value, exactly as JSON.stringify prints it
(no whitespace, members in order). -/
def render : Json → List Char
  | .null => ("null").data
  | .bool true => ("true").data
  | .bool false => ("false").data
  | .num n => (toString n).data
  | .str s => renderString s
  | .arr [] => ['[', ']']
  | .arr (x :: xs) => '[' :: (render x ++ renderElems xs ++ [']'])
  | .obj [] => ['{', '}']
  | .obj (kv :: kvs) => '{' :: (renderMember kv ++ renderMembers kvs ++ ['}'])

/-- Rendering of the second and later array elements, each preceded by a comma. -/
def renderElems : List Json → List Char
  | [] => []
  | x :: xs => ',' :: (render x ++ renderElems xs)

/-- Rendering of one object member. -/
def renderMember : String × Json → List Char
  | (k, v) => renderString k ++ (':' :: render v)

/-- Rendering of the second and later object members, each preceded by a comma. -/
def renderMembers : List (String × Json) → List Char
  | [] => []
  | kv :: kvs => ',' :: (renderMember kv ++ renderMembers kvs)
end

mutual
/-- True when a JSON value contains no numeric leaf.  Every value this
repository passes to JSON.stringify is number-free. -/
def numFree : Json → Bool
  | .null => true
  | .bool _ => true
  | .num _ => false
  | .str _ => true
  | .arr xs => numFreeElems xs
  | .obj kvs => numFreeMembers kvs

def numFreeElems : List Json → Bool
  | [] => true
  | x :: xs => numFree x && numFreeElems xs

def numFreeMembers : List (String × Json) → Bool
  | [] => true
  | kv :: kvs => numFree kv.2 && numFreeMembers kvs
end

/-- Hex digit value, accepting both cases as JSON.parse does. -/
def hexVal (c : Char) : Option Nat :=
  if 48 ≤ c.toNat ∧ c.toNat ≤ 57 then some (c.toNat - 48)
  else if 97 ≤ c.toNat ∧ c.toNat ≤ 102 then some (c.toNat - 87)
  else if 65 ≤ c.toNat ∧ c.toNat ≤ 70 then some (c.toNat - 55)
  else none

/-- Parser for the body of a JSON string literal (after the opening quote),
returning the decoded characters and the input following the closing quote.
Raw control characters are rejected, escape sequences are decoded. -/
def parseStringRest : List Char → Option (List Char × List Char)
  | [] => none
  | c :: cs =>
    if c = '"' then some ([], cs)
    else if c = '\\' then
      match cs with
      | [] => none
      | e :: cs' =>
        if e = '"' then (parseStringRest cs').map (fun p => ('"' :: p.1, p.2))
        else if e = '\\' then (parseStringRest cs').map (fun p => ('\\' :: p.1, p.2))
        else if e = '/' then (parseStringRest cs').map (fun p => ('/' :: p.1, p.2))
        else if e = 'b' then (parseStringRest cs').map (fun p => (Char.ofNat 8 :: p.1, p.2))
        else if e = 'f' then (parseStringRest cs').map (fun p => (Char.ofNat 12 :: p.1, p.2))
        else if e = 'n' then (parseStringRest cs').map (fun p => ('\n' :: p.1, p.2))
        else if e = 'r' then (parseStringRest cs').map (fun p => ('\r' :: p.1, p.2))
        else if e = 't' then (parseStringRest cs').map (fun p => ('\t' :: p.1, p.2))
        else if e = 'u' then
          match cs' with
          | a :: b :: c2 :: d :: cs'' =>
            match hexVal a, hexVal b, hexVal c2, hexVal d with
            | some ha, some hb, some hc, some hd =>
              (parseStringRest cs'').map
                (fun p => (Char.ofNat (((ha * 16 + hb) * 16 + hc) * 16 + hd) :: p.1, p.2))
            | _, _, _, _ => none
          | _ => none
        else none
    else if c.toNat < 32 then none
    else (parseStringRest cs).map (fun p => (c :: p.1, p.2))

/-- JSON whitespace test. -/
def isWs (c : Char) : Bool :=
  c = ' ' || c = '\t' || c = '\n' || c = '\r'

/-- Skip leading JSON whitespace. -/
def skipWs : List Char → List Char
  | [] => []
  | c :: cs => if isWs c then skipWs cs else c :: cs

/-- Digit accumulation for number literals. -/
def parseDigits : List Char → Nat → Nat × List Char
  | [], acc => (acc, [])
  | c :: cs, acc =>
    if c.isDigit then parseDigits cs (acc * 10 + (c.toNat - 48)) else (acc, c :: cs)

/-- Integer number literals (this repository never serializes numbers, so
fractional parts and exponents are left out of the model). -/
def parseNumber : List Char → Option (Json × List Char)
  | '-' :: c :: cs =>
    if c.isDigit then
      let p := parseDigits cs (c.toNat - 48)
      some (.num (-(p.1 : Int)), p.2)
    else none
  | c :: cs =>
    if c.isDigit then
      let p := parseDigits cs (c.toNat - 48)
      some (.num (p.1 : Int), p.2)
    else none
  | [] => none

mutual
/-- Fueled JSON value parser.  The fuel only bounds the nesting recursion;
`Json.parse` below supplies fuel that is always sufficient, so the pair
(`Json.parse`, `Json.stringify`) is a faithful embedding of the JavaScript
pair (JSON.parse, JSON.stringify) on the fragment this repository uses. -/
def parseValue : Nat → List Char → Option (Json × List Char)
  | 0, _ => none
  | fuel + 1, cs =>
    match skipWs cs with
    | [] => none
    | c :: rest =>
      if c = '"' then (parseStringRest rest).map (fun p => (.str (String.mk p.1), p.2))
      else if c = '[' then
        match skipWs rest with
        | ']' :: r => some (.arr [], r)
        | r => (parseElems fuel r).map (fun p => (.arr p.1, p.2))
      else if c = '{' then
        match skipWs rest with
        | '}' :: r => some (.obj [], r)
        | r => (parseMembers fuel r).map (fun p => (.obj p.1, p.2))
      else if c = 'n' then
        match rest with
        | 'u' :: 'l' :: 'l' :: r => some (.null, r)
        | _ => none
      else if c = 't' then
        match rest with
        | 'r' :: 'u' :: 'e' :: r => some (.bool true, r)
        | _ => none
      else if c = 'f' then
        match rest with
        | 'a' :: 'l' :: 's' :: 'e' :: r => some (.bool false, r)
        | _ => none
      else if c = '-' ∨ c.isDigit then parseNumber (c :: rest)
      else none

/-- One or more comma-separated array elements followed by the closing
bracket. -/
def parseElems : Nat → List Char → Option (List Json × List Char)
  | 0, _ => none
  | fuel + 1, cs =>
    match parseValue fuel cs with
    | none => none
    | some (v, rest) =>
      match skipWs rest with
      | [] => none
      | c :: r =>
        if c = ',' then (parseElems fuel r).map (fun p => (v :: p.1, p.2))
        else if c = ']' then some ([v], r)
        else none

/-- One or more comma-separated object members followed by the closing
brace. -/
def parseMembers : Nat → List Char → Option (List (String × Json) × List Char)
  | 0, _ => none
  | fuel + 1, cs =>
    match skipWs cs with
    | [] => none
    | c :: r =>
      if c = '"' then
        match parseStringRest r with
        | none => none
        | some (kcs, r1) =>
          match skipWs r1 with
          | [] => none
          | c1 :: r2 =>
            if c1 = ':' then
              match parseValue fuel r2 with
              | none => none
              | some (v, r3) =>
                match skipWs r3 with
                | [] => none
                | c2 :: r4 =>
                  if c2 = ',' then
                    (parseMembers fuel r4).map (fun p => ((String.mk kcs, v) :: p.1, p.2))
                  else if c2 = '}' then some ([(String.mk kcs, v)], r4)
                  else none
            else none
      else none
end

/-- Embedding of JSON.parse: parse one value, require only whitespace after
it.  The fuel `2 * length + 2` exceeds the recursion depth of any input. -/
def Json.parse (s : String) : Option Json :=
  match parseValue (2 * s.length + 2) s.data with
  | some (j, rest) => if (skipWs rest).isEmpty then some j else none
  | none => none

/-- Embedding of JSON.stringify. -/
def Json.stringify (j : Json) : String := String.mk (render j)

-- ===========================================================================
-- Round-trip proof: parse (stringify j) = some j for number-free values
-- ===========================================================================

theorem hexVal_hexDigitChar (d : Nat) (h : d < 16) : hexVal (hexDigitChar d) = some d := by
  interval_cases d <;> decide

theorem psr_quote (tail : List Char) : parseStringRest ('"' :: tail) = some ([], tail) := by
  rw [parseStringRest.eq_def]; simp

theorem psr_esc_quote (tail : List Char) :
    parseStringRest ('\\' :: '"' :: tail) = (parseStringRest tail).map (fun p => ('"' :: p.1, p.2)) := by
  rw [parseStringRest.eq_def]; simp

theorem psr_esc_backslash (tail : List Char) :
    parseStringRest ('\\' :: '\\' :: tail) = (parseStringRest tail).map (fun p => ('\\' :: p.1, p.2)) := by
  rw [parseStringRest.eq_def]; simp

theorem psr_esc_b (tail : List Char) :
    parseStringRest ('\\' :: 'b' :: tail) =
      (parseStringRest tail).map (fun p => (Char.ofNat 8 :: p.1, p.2)) := by
  rw [parseStringRest.eq_def]; simp

theorem psr_esc_t (tail : List Char) :
    parseStringRest ('\\' :: 't' :: tail) = (parseStringRest tail).map (fun p => ('\t' :: p.1, p.2)) := by
  rw [parseStringRest.eq_def]; simp

theorem psr_esc_n (tail : List Char) :
    parseStringRest ('\\' :: 'n' :: tail) = (parseStringRest tail).map (fun p => ('\n' :: p.1, p.2)) := by
  rw [parseStringRest.eq_def]; simp

theorem psr_esc_f (tail : List Char) :
    parseStringRest ('\\' :: 'f' :: tail) =
      (parseStringRest tail).map (fun p => (Char.ofNat 12 :: p.1, p.2)) := by
  rw [parseStringRest.eq_def]; simp

theorem psr_esc_r (tail : List Char) :
    parseStringRest ('\\' :: 'r' :: tail) = (parseStringRest tail).map (fun p => ('\r' :: p.1, p.2)) := by
  rw [parseStringRest.eq_def]; simp

theorem hexVal_zero : hexVal '0' = some 0 := by decide

theorem psr_esc_u (q r : Nat) (hq : q < 16) (hr : r < 16) (tail : List Char) :
    parseStringRest ('\\' :: 'u' :: '0' :: '0' :: hexDigitChar q :: hexDigitChar r :: tail) =
      (parseStringRest tail).map (fun p => (Char.ofNat (q * 16 + r) :: p.1, p.2)) := by
  rw [parseStringRest.eq_def]
  simp [hexVal_hexDigitChar _ hq, hexVal_hexDigitChar _ hr, hexVal_zero]

theorem psr_plain (c : Char) (tail : List Char) (h1 : ¬c = '"') (h2 : ¬c = '\\')
    (h8 : ¬c.toNat < 32) :
    parseStringRest (c :: tail) = (parseStringRest tail).map (fun p => (c :: p.1, p.2)) := by
  rw [parseStringRest.eq_def]; simp [h1, h2, h8]

theorem escape_rt (cs : List Char) (rest : List Char) :
    parseStringRest (cs.flatMap escapeChar ++ ('"' :: rest)) = some (cs, rest) := by
  induction cs with
  | nil => simp [psr_quote]
  | cons c cs ih =>
    by_cases h1 : c = '"'
    · subst h1; simp [escapeChar, psr_esc_quote, ih]
    · by_cases h2 : c = '\\'
      · subst h2; simp [escapeChar, psr_esc_backslash, ih]
      · by_cases h3 : c = Char.ofNat 8
        · subst h3; simp [escapeChar, psr_esc_b, ih]
        · by_cases h4 : c = '\t'
          · subst h4; simp [escapeChar, psr_esc_t, ih]
          · by_cases h5 : c = '\n'
            · subst h5; simp [escapeChar, psr_esc_n, ih]
            · by_cases h6 : c = Char.ofNat 12
              · subst h6; simp [escapeChar, psr_esc_f, ih]
              · by_cases h7 : c = '\r'
                · subst h7; simp [escapeChar, psr_esc_r, ih]
                · by_cases h8 : c.toNat < 32
                  · have hq : c.toNat / 16 < 16 := by omega
                    have hr : c.toNat % 16 < 16 := Nat.mod_lt _ (by omega)
                    have hfl : (c :: cs).flatMap escapeChar ++ ('"' :: rest) =
                        '\\' :: 'u' :: '0' :: '0' :: hexDigitChar (c.toNat / 16) ::
                          hexDigitChar (c.toNat % 16) :: (cs.flatMap escapeChar ++ ('"' :: rest)) := by
                      simp [escapeChar, h1, h2, h3, h4, h5, h6, h7, h8]
                    rw [hfl, psr_esc_u _ _ hq hr, ih]
                    rw [show c.toNat / 16 * 16 + c.toNat % 16 = c.toNat by omega,
                      Char.ofNat_toNat]
                    rfl
                  · have hfl : (c :: cs).flatMap escapeChar ++ ('"' :: rest) =
                        c :: (cs.flatMap escapeChar ++ ('"' :: rest)) := by
                      simp [escapeChar, h1, h2, h3, h4, h5, h6, h7, h8]
                    rw [hfl, psr_plain c _ h1 h2 h8, ih]
                    rfl

theorem data_null : ("null").data = 'n' :: 'u' :: 'l' :: 'l' :: [] := rfl

theorem data_true : ("true").data = 't' :: 'r' :: 'u' :: 'e' :: [] := rfl

theorem data_false : ("false").data = 'f' :: 'a' :: 'l' :: 's' :: 'e' :: [] := rfl

theorem skipWs_not_ws {c : Char} (h : isWs c = false) (cs : List Char) :
    skipWs (c :: cs) = c :: cs := by
  simp [skipWs, h]

theorem render_head (j : Json) (hnf : numFree j = true) :
    ∃ c cs, render j = c :: cs ∧ isWs c = false ∧ ¬c = ']' := by
  cases j with
  | null => exact ⟨'n', ['u', 'l', 'l'], by simp [render, data_null], by decide, by decide⟩
  | bool b =>
    cases b with
    | true => exact ⟨'t', ['r', 'u', 'e'], by simp [render, data_true], by decide, by decide⟩
    | false =>
      exact ⟨'f', ['a', 'l', 's', 'e'], by simp [render, data_false], by decide, by decide⟩
  | num n => simp [numFree] at hnf
  | str s =>
    exact ⟨'"', s.data.flatMap escapeChar ++ ['"'], by simp [render, renderString],
      by decide, by decide⟩
  | arr xs =>
    cases xs with
    | nil => exact ⟨'[', [']'], by simp [render], by decide, by decide⟩
    | cons x xs =>
      exact ⟨'[', render x ++ renderElems xs ++ [']'], by simp [render], by decide, by decide⟩
  | obj kvs =>
    cases kvs with
    | nil => exact ⟨'{', ['}'], by simp [render], by decide, by decide⟩
    | cons kv kvs =>
      exact ⟨'{', renderMember kv ++ renderMembers kvs ++ ['}'], by simp [render],
        by decide, by decide⟩

theorem render_length_pos (j : Json) (hnf : numFree j = true) : 0 < (render j).length := by
  obtain ⟨c, cs, hc, -, -⟩ := render_head j hnf
  simp [hc]

theorem pv_str (g : Nat) (tail : List Char) :
    parseValue (g + 1) ('"' :: tail) =
      (parseStringRest tail).map (fun p => (Json.str (String.mk p.1), p.2)) := by
  simp only [parseValue]; simp [skipWs, isWs]

theorem pv_null (g : Nat) (tail : List Char) :
    parseValue (g + 1) ('n' :: 'u' :: 'l' :: 'l' :: tail) = some (.null, tail) := by
  simp only [parseValue]; simp [skipWs, isWs]

theorem pv_true (g : Nat) (tail : List Char) :
    parseValue (g + 1) ('t' :: 'r' :: 'u' :: 'e' :: tail) = some (.bool true, tail) := by
  simp only [parseValue]; simp [skipWs, isWs]

theorem pv_false (g : Nat) (tail : List Char) :
    parseValue (g + 1) ('f' :: 'a' :: 'l' :: 's' :: 'e' :: tail) = some (.bool false, tail) := by
  simp only [parseValue]; simp [skipWs, isWs]

theorem pv_arr_empty (g : Nat) (tail : List Char) :
    parseValue (g + 1) ('[' :: ']' :: tail) = some (.arr [], tail) := by
  simp only [parseValue]; simp [skipWs, isWs]

theorem pv_arr_cons (g : Nat) (c : Char) (cs : List Char) (hws : isWs c = false)
    (hbr : ¬c = ']') :
    parseValue (g + 1) ('[' :: c :: cs) =
      (parseElems g (c :: cs)).map (fun p => (Json.arr p.1, p.2)) := by
  simp only [parseValue]
  rw [skipWs_not_ws (by decide)]
  dsimp only
  rw [skipWs_not_ws hws]
  simp
  split
  · rename_i r heq
    injection heq with h1 h2
    exact absurd h1 hbr
  · rfl

theorem pv_obj_empty (g : Nat) (tail : List Char) :
    parseValue (g + 1) ('{' :: '}' :: tail) = some (.obj [], tail) := by
  simp only [parseValue]; simp [skipWs, isWs]

theorem pv_obj_cons (g : Nat) (c : Char) (cs : List Char) (hws : isWs c = false)
    (hbr : ¬c = '}') :
    parseValue (g + 1) ('{' :: c :: cs) =
      (parseMembers g (c :: cs)).map (fun p => (Json.obj p.1, p.2)) := by
  simp only [parseValue]
  rw [skipWs_not_ws (by decide)]
  dsimp only
  rw [skipWs_not_ws hws]
  simp
  split
  · rename_i r heq
    injection heq with h1 h2
    exact absurd h1 hbr
  · rfl

mutual
theorem rt_value (fuel : Nat) (j : Json) (hnf : numFree j = true)
    (hf : (render j).length ≤ fuel) (rest : List Char) :
    parseValue fuel (render j ++ rest) = some (j, rest) := by
  obtain ⟨g, rfl⟩ : ∃ g, fuel = g + 1 := by
    have := render_length_pos j hnf
    cases fuel with
    | zero => omega
    | succ g => exact ⟨g, rfl⟩
  cases j with
  | null =>
    simp only [render, data_null, List.cons_append, List.nil_append]
    rw [pv_null]
  | bool b =>
    cases b with
    | true =>
      simp only [render, data_true, List.cons_append, List.nil_append]
      rw [pv_true]
    | false =>
      simp only [render, data_false, List.cons_append, List.nil_append]
      rw [pv_false]
  | num n => simp [numFree] at hnf
  | str s =>
    simp only [render, renderString, List.cons_append, List.append_assoc,
      List.singleton_append, List.nil_append]
    rw [pv_str, escape_rt]
    rfl
  | arr xs =>
    cases xs with
    | nil =>
      simp only [render, List.cons_append, List.nil_append]
      rw [pv_arr_empty]
    | cons x xs =>
      have hx : numFree x = true ∧ numFreeElems xs = true := by
        have h := hnf; simp [numFree, numFreeElems] at h; exact h
      have hlen : (render x).length + (renderElems xs).length + 2 ≤ g + 1 := by
        simpa [render] using hf
      obtain ⟨c, cs, hcons, hws, hbr⟩ := render_head x hx.1
      simp only [render, hcons, List.cons_append, List.append_assoc, List.nil_append,
        List.singleton_append]
      rw [pv_arr_cons g c _ hws hbr]
      have hre : c :: (cs ++ (renderElems xs ++ (']' :: rest))) =
          (render x ++ renderElems xs) ++ (']' :: rest) := by
        rw [hcons]; simp
      rw [hre, rt_elems g x xs rest hx (by omega)]
      rfl
  | obj kvs =>
    cases kvs with
    | nil =>
      simp only [render, List.cons_append, List.nil_append]
      rw [pv_obj_empty]
    | cons kv kvs =>
      obtain ⟨k, v⟩ := kv
      have hx : numFree v = true ∧ numFreeMembers kvs = true := by
        have h := hnf; simp [numFree, numFreeMembers] at h; exact h
      have hlen : (renderMember (k, v)).length + (renderMembers kvs).length + 2 ≤ g + 1 := by
        simpa [render] using hf
      simp only [render, renderMember, renderString, List.cons_append, List.append_assoc,
        List.nil_append, List.singleton_append]
      rw [pv_obj_cons g '"' _ (by decide) (by decide)]
      have hre : ('"' : Char) :: (k.data.flatMap escapeChar ++ ('"' :: (':' ::
          (render v ++ (renderMembers kvs ++ ('}' :: rest)))))) =
          (renderMember (k, v) ++ renderMembers kvs) ++ ('}' :: rest) := by
        simp [renderMember, renderString]
      rw [hre, rt_members g k v kvs rest hx (by omega)]
      rfl

theorem rt_elems (fuel : Nat) (x : Json) (xs : List Json) (rest : List Char)
    (hnf : numFree x = true ∧ numFreeElems xs = true)
    (hf : (render x).length + (renderElems xs).length < fuel) :
    parseElems fuel ((render x ++ renderElems xs) ++ (']' :: rest)) = some (x :: xs, rest) := by
  obtain ⟨f, rfl⟩ : ∃ f, fuel = f + 1 := by
    cases fuel with
    | zero => omega
    | succ f => exact ⟨f, rfl⟩
  simp only [parseElems]
  simp only [List.append_assoc]
  rw [rt_value f x hnf.1 (by omega) (renderElems xs ++ (']' :: rest))]
  cases xs with
  | nil => simp [renderElems, skipWs, isWs]
  | cons y ys =>
    have hy : numFree y = true ∧ numFreeElems ys = true := by
      have h := hnf.2; simp [numFreeElems] at h; exact h
    simp only [renderElems, List.cons_append, List.append_assoc, List.nil_append]
    rw [skipWs_not_ws (by decide)]
    simp only [reduceIte]
    rw [show render y ++ (renderElems ys ++ (']' :: rest)) =
        (render y ++ renderElems ys) ++ (']' :: rest) by simp]
    rw [rt_elems f y ys rest hy (by simp [renderElems] at hf; omega)]
    rfl

theorem rt_members (fuel : Nat) (k : String) (v : Json) (kvs : List (String × Json))
    (rest : List Char) (hnf : numFree v = true ∧ numFreeMembers kvs = true)
    (hf : (renderMember (k, v)).length + (renderMembers kvs).length < fuel) :
    parseMembers fuel ((renderMember (k, v) ++ renderMembers kvs) ++ ('}' :: rest)) =
      some ((k, v) :: kvs, rest) := by
  obtain ⟨f, rfl⟩ : ∃ f, fuel = f + 1 := by
    cases fuel with
    | zero => omega
    | succ f => exact ⟨f, rfl⟩
  have hlen : (renderMember (k, v)).length =
      (k.data.flatMap escapeChar).length + (render v).length + 3 := by
    simp [renderMember, renderString]; omega
  simp only [parseMembers]
  simp only [renderMember, renderString, List.cons_append, List.append_assoc,
    List.singleton_append, List.nil_append]
  rw [skipWs_not_ws (by decide)]
  simp only [reduceIte]
  simp only [escape_rt]
  rw [skipWs_not_ws (by decide)]
  simp only [reduceIte]
  rw [rt_value f v hnf.1 (by omega) (renderMembers kvs ++ ('}' :: rest))]
  cases kvs with
  | nil => simp [renderMembers, skipWs, isWs]
  | cons kv2 kvs2 =>
    obtain ⟨k2, v2⟩ := kv2
    have hy : numFree v2 = true ∧ numFreeMembers kvs2 = true := by
      have h := hnf.2; simp [numFreeMembers] at h; exact h
    simp only [renderMembers, List.cons_append, List.append_assoc, List.nil_append]
    rw [skipWs_not_ws (by decide)]
    simp only [reduceIte]
    rw [show renderMember (k2, v2) ++ (renderMembers kvs2 ++ ('}' :: rest)) =
        (renderMember (k2, v2) ++ renderMembers kvs2) ++ ('}' :: rest) by simp]
    rw [rt_members f k2 v2 kvs2 rest hy (by simp [renderMembers] at hf; omega)]
    rfl
end

/-- The JSON round trip: parsing a stringified number-free value gives the
value back, byte for byte of the serialized form. -/
theorem parse_stringify (j : Json) (h : numFree j = true) :
    Json.parse (Json.stringify j) = some j := by
  unfold Json.parse Json.stringify
  have hrt := rt_value (2 * (String.mk (render j)).length + 2) j h
    (by rw [show (String.mk (render j)).length = (render j).length from rfl]; omega) []
  rw [List.append_nil] at hrt
  rw [show (String.mk (render j)).data = render j from rfl]
  rw [hrt]
  simp [skipWs]

-- ===========================================================================
-- URL / query-string model
-- ===========================================================================

/-- Decoded query parameters of a URL, in order.  `URLSearchParams.get`
returns the first value for a key (or null), `URLSearchParams.set` replaces
the value of an existing key or appends a new pair. -/
def getParam (q : List (String × String)) (k : String) : Option String :=
  (q.find? (fun p => p.1 = k)).map (fun p => p.2)

/-- Embedding of `URLSearchParams.set` (the handlers never create duplicate
keys, so replacing every occurrence coincides with the JavaScript
behavior). -/
def setParam (q : List (String × String)) (k v : String) : List (String × String) :=
  if (q.find? (fun p => p.1 = k)).isSome then
    q.map (fun p => if p.1 = k then (k, v) else p)
  else q ++ [(k, v)]

/-- A URL as the handlers build it: a base (scheme, host and path) plus
query parameters. -/
structure UrlModel where
  base : String
  query : List (String × String)
deriving Repr

/-- JavaScript string truthiness of a nullable string: null and the empty
string are falsy. -/
def truthy : Option String → Bool
  | some s => !s.isEmpty
  | none => false

/-- Embedding of the JavaScript idiom `a || b` on a nullable string. -/
def jsOrStr (o : Option String) (d : String) : String :=
  match o with
  | some s => if s.isEmpty then d else s
  | none => d

-- ===========================================================================
-- OAuth data model (src/src/auth/oauth-handlers.ts and src/src/index.ts)
-- ===========================================================================

/-- The upstream OAuth request parsed by `@cloudflare/workers-oauth-provider`
(external dependency).  Only the fields this repository reads are modelled;
an absent `client_id` parses to the empty string, and the optional PKCE
fields are absent when the upstream client did not send them. -/
structure AuthRequest where
  responseType : String
  clientId : String
  redirectUri : String
  scope : List String
  state : String
  codeChallenge : Option String := none
  codeChallengeMethod : Option String := none
deriving Repr, DecidableEq

/-- Worker environment bindings used by the OAuth handlers. -/
structure Env where
  GROVEAUTH_CLIENT_ID : String
  GROVEAUTH_CLIENT_SECRET : String
deriving Repr

/-- JSON serialization of an `AuthRequest` object as JSON.stringify sees it:
string fields in declaration order, the scope array of strings, and the PKCE
fields only when present (undefined fields are omitted). -/
def authReqJson (r : AuthRequest) : Json :=
  .obj ([("responseType", .str r.responseType),
         ("clientId", .str r.clientId),
         ("redirectUri", .str r.redirectUri),
         ("scope", .arr (r.scope.map (fun s => .str s))),
         ("state", .str r.state)] ++
        (match r.codeChallenge with
         | some c => [("codeChallenge", Json.str c)]
         | none => []) ++
        (match r.codeChallengeMethod with
         | some m => [("codeChallengeMethod", Json.str m)]
         | none => []))

/-- The state blob `JSON.stringify({ oauthReq })` built by handleAuthorize. -/
def stateJson (r : AuthRequest) : Json :=
  .obj [("oauthReq", authReqJson r)]

/-- Property lookup on a parsed JSON value, as JavaScript member access does
it: objects yield the (last) value bound to the key, everything else yields
undefined (`none`).  JSON.parse keeps the last of duplicate keys, which this
lookup mirrors. -/
def objGet (j : Json) (k : String) : Option Json :=
  match j with
  | .obj kvs => ((kvs.filter (fun p => p.1 = k)).getLast?).map (fun p => p.2)
  | _ => none

/-- Decoding of a JSON array of strings. -/
def decodeScopeList : List Json → Option (List String)
  | [] => some []
  | .str s :: xs => (decodeScopeList xs).map (fun l => s :: l)
  | _ => none

/-- Field-by-field decoding of a serialized `AuthRequest`, the formal reading
of the spec's "deserialization reconstructs the original upstream request". -/
def decodeAuthRequest (j : Json) : Option AuthRequest := do
  let getStr := fun (k : String) => do
    match objGet j k with
    | some (.str s) => some s
    | _ => none
  let responseType ← getStr ("responseType")
  let clientId ← getStr ("clientId")
  let redirectUri ← getStr ("redirectUri")
  let state ← getStr ("state")
  let scopeJson ← objGet j ("scope")
  let scope ← match scopeJson with
    | .arr xs => decodeScopeList xs
    | _ => none
  let codeChallenge : Option String := match objGet j ("codeChallenge") with
    | some (.str s) => some s
    | _ => none
  let codeChallengeMethod : Option String := match objGet j ("codeChallengeMethod") with
    | some (.str s) => some s
    | _ => none
  pure { responseType := responseType, clientId := clientId, redirectUri := redirectUri,
         scope := scope, state := state, codeChallenge := codeChallenge,
         codeChallengeMethod := codeChallengeMethod }

-- ===========================================================================
-- handleAuthorize (src/src/auth/oauth-handlers.ts, lines 22-47)
-- ===========================================================================

/-- An HTTP response as the OAuth handlers produce it: either a JSON error
body `\x7b error, error_description \x7d` with a status, or a redirect. -/
inductive HttpResponse where
  | jsonBody (status : Nat) (error : String) (errorDescription : String)
  | redirect (status : Nat) (location : UrlModel)
deriving Repr

/-- The Heartwood authorization URL built by handleAuthorize, line by line:
`/login` base, `client_id`, `redirect_uri`, optional PKCE passthrough, and
the serialized upstream request in `state`. -/
def authorizeUrl (env : Env) (oauthReq : AuthRequest) : UrlModel :=
  let u0 : UrlModel := { base := "https://heartwood.grove.place/login", query := [] }
  let u1 : UrlModel := { u0 with query := setParam u0.query ("client_id") env.GROVEAUTH_CLIENT_ID }
  let u2 : UrlModel :=
    { u1 with query := setParam u1.query ("redirect_uri") ("https://mycelium.grove.place/callback") }
  let u3 : UrlModel :=
    match oauthReq.codeChallenge with
    | some ch =>
      let ua : UrlModel := { u2 with query := setParam u2.query ("code_challenge") ch }
      { ua with query :=
          setParam ua.query ("code_challenge_method") (jsOrStr oauthReq.codeChallengeMethod ("S256")) }
    | none => u2
  { u3 with query := setParam u3.query ("state") (Json.stringify (stateJson oauthReq)) }

/-- Embedding of `handleAuthorize`: builds the Heartwood URL and returns a
302 redirect to it.  The `request` argument of the source is unused there,
and `env` only supplies the client id. -/
def handleAuthorize (env : Env) (oauthReq : AuthRequest) : HttpResponse :=
  .redirect 302 (authorizeUrl env oauthReq)

-- ===========================================================================
-- handleCallback (src/src/auth/oauth-handlers.ts, lines 76-212)
-- ===========================================================================

/-- Outcome of one `await fetch(...)` (plus the `await res.json()` that
follows it when the response is 2xx): the promise can reject (network
failure), resolve with a non-2xx response, resolve 2xx but with a body that
is not valid JSON, or resolve 2xx with a parsed body. -/
inductive FetchResult (α : Type) where
  | rejected
  | notOk
  | okBadJson
  | okJson (a : α)
deriving Repr

/-- Body of the Heartwood token-exchange response. -/
structure TokenBody where
  access_token : String
  refresh_token : Option String := none
  expires_in : Int := 0
deriving Repr, DecidableEq

/-- Body of the Heartwood `/session/validate` response. -/
structure UserBody where
  id : String
  email : String
  tenants : Option (List String) := none
deriving Repr, DecidableEq

/-- The two identity-provider calls handleCallback makes, as oracles. -/
structure CallbackFetches where
  tokenRes : FetchResult TokenBody
  userRes : FetchResult UserBody

/-- The argument object handleCallback passes to `completeAuth`.
`request` is `state.oauthReq` (undefined modelled as `none`), `scope` is
`state.oauthReq?.scope`. -/
structure CompleteAuthParams where
  request : Option Json
  userId : String
  metadataEmail : String
  scope : Option Json
  propsUserId : String
  propsEmail : String
  propsTenants : List String
  propsHeartwoodToken : String
deriving Repr

/-- What handleCallback does: return an HTTP response directly, or call
`completeAuth` with the recorded parameters and redirect to its result. -/
inductive CallbackResult where
  | response (r : HttpResponse)
  | grant (p : CompleteAuthParams) (location : String)

/-- A callback request: its decoded query parameters. -/
structure CallbackRequest where
  params : List (String × String)

/-- Embedding of `handleCallback` (Heartwood version, the file under
`src/auth/oauth-handlers.ts`).  `Except.error ()` models a JavaScript
exception escaping the handler (rejected `fetch`, `res.json()` failure, or
a property access on a parsed `null` state).  The checks appear in source
order: `error`, then `code`, then `state`, then JSON.parse of the state,
then the token exchange, then the user-info call, then `completeAuth`. -/
def handleCallback (req : CallbackRequest) (_env : Env) (fetches : CallbackFetches)
    (completeAuth : CompleteAuthParams → String) : Except Unit CallbackResult :=
  let code := getParam req.params ("code")
  let stateParam := getParam req.params ("state")
  let error := getParam req.params ("error")
  if truthy error then
    let e := jsOrStr error ("")
    .ok (.response (.jsonBody 400 e (jsOrStr (getParam req.params ("error_description")) e)))
  else if !truthy code then
    .ok (.response (.jsonBody 400 ("missing_code") ("No authorization code provided")))
  else if !truthy stateParam then
    .ok (.response (.jsonBody 400 ("missing_state") ("No state parameter provided")))
  else
    match Json.parse (jsOrStr stateParam ("")) with
    | none =>
      .ok (.response (.jsonBody 400 ("invalid_state") ("Could not parse state parameter")))
    | some stJson =>
      match fetches.tokenRes with
      | .rejected => .error ()
      | .notOk =>
        .ok (.response (.jsonBody 502 ("token_exchange_failed")
          ("Failed to exchange code for tokens")))
      | .okBadJson => .error ()
      | .okJson tokens =>
        match fetches.userRes with
        | .rejected => .error ()
        | .notOk =>
          .ok (.response (.jsonBody 502 ("user_info_failed")
            ("Failed to fetch user information")))
        | .okBadJson => .error ()
        | .okJson user =>
          match stJson with
          | .null => .error ()
          | st =>
            let oauthReq := objGet st ("oauthReq")
            let p : CompleteAuthParams :=
              { request := oauthReq
                userId := user.id
                metadataEmail := user.email
                scope := oauthReq.bind (fun j => objGet j ("scope"))
                propsUserId := user.id
                propsEmail := user.email
                propsTenants := user.tenants.getD []
                propsHeartwoodToken := tokens.access_token }
            .ok (.grant p (completeAuth p))

-- ===========================================================================
-- The /authorize route of the default handler (src/index.ts, lines 57-86)
-- ===========================================================================

/-- Result of `ctx.parseAuthRequest(request)`: it can throw (caught by the
route) or return the parsed request. -/
inductive ParseAuthOutcome where
  | failure
  | ok (r : AuthRequest)
deriving Repr

/-- Embedding of the `/authorize` route of the default handler: a parse
failure or a falsy `clientId` is answered with 400 `invalid_request`;
otherwise `handleAuthorize` runs. -/
def authorizeRoute (env : Env) (pr : ParseAuthOutcome) : HttpResponse :=
  match pr with
  | .failure => .jsonBody 400 ("invalid_request") ("Could not parse OAuth request")
  | .ok oauthReq =>
    if oauthReq.clientId.isEmpty then
      .jsonBody 400 ("invalid_request") ("Missing client_id")
    else handleAuthorize env oauthReq

-- ===========================================================================
-- Device-code polling loop (cli/commands/auth/index.ts, grove login)
-- ===========================================================================

/-- Embedding of the JavaScript idiom `n || d` on a nullable number:
null/undefined and 0 are falsy. -/
def jsOrNat (o : Option Nat) (d : Nat) : Nat :=
  match o with
  | some n => if n = 0 then d else n
  | none => d

theorem jsOrNat_pos (o : Option Nat) (d : Nat) (hd : 0 < d) : 0 < jsOrNat o d := by
  cases o with
  | none => simpa [jsOrNat]
  | some n =>
    by_cases h : n = 0 <;> simp [jsOrNat, h] <;> omega

/-- One poll outcome as the loop body sees it: the five RFC 8628 error codes
the client distinguishes, a success with token material, or a thrown network
error (the `catch` around `pollDeviceCode`). -/
inductive PollResponse where
  | pending
  | slowDown (interval : Option Nat)
  | accessDenied
  | expiredToken
  | invalidGrant
  | success (tokens : TokenBody)
deriving Repr

/-- How `grove login` ends once polling has started. -/
inductive LoginOutcome where
  | timeout
  | denied
  | expired
  | invalidGrant
  | networkError
  | success (tokens : TokenBody)
deriving Repr, DecidableEq

/-- Result of the polling loop: the outcome, the seconds slept in total, and
the poll interval in force when the loop ended. -/
structure PollLoopResult where
  outcome : LoginOutcome
  elapsed : Nat
  finalInterval : Nat
deriving Repr, DecidableEq

/-- Poll oracle: the k-th poll's outcome, or `none` when `pollDeviceCode`
threw (network error). -/
def PollOracle := Nat → Option PollResponse

/-- Embedding of the `while (Date.now() - startTime < maxTime)` polling loop
of `grove login` (device-code branch).  Time is discrete: each iteration
first sleeps `pollInterval` seconds, then polls; the poll itself is
instantaneous.  `maxTime` is in seconds (the source multiplies everything by
1000).  The interval invariant `0 < pollInterval` holds at every reachable
call because every interval update goes through `jsOrNat`. -/
def loginLoop (maxTime : Nat) (respond : PollOracle) (k : Nat) (elapsed : Nat)
    (pollInterval : Nat) (hp : 0 < pollInterval) : PollLoopResult :=
  if elapsed < maxTime then
    let elapsed' := elapsed + pollInterval
    match respond k with
    | none => ⟨.networkError, elapsed', pollInterval⟩
    | some .pending => loginLoop maxTime respond (k + 1) elapsed' pollInterval hp
    | some (.slowDown iv) =>
      loginLoop maxTime respond (k + 1) elapsed' (jsOrNat iv (pollInterval + 5))
        (jsOrNat_pos iv (pollInterval + 5) (by omega))
    | some .accessDenied => ⟨.denied, elapsed', pollInterval⟩
    | some .expiredToken => ⟨.expired, elapsed', pollInterval⟩
    | some .invalidGrant => ⟨.invalidGrant, elapsed', pollInterval⟩
    | some (.success t) => ⟨.success t, elapsed', pollInterval⟩
  else ⟨.timeout, elapsed, pollInterval⟩
termination_by maxTime - elapsed
decreasing_by all_goals omega

/-- Entry into the polling phase of `grove login`: `maxTime` is
`min(expires_in, MAX_POLL_TIME)` with `MAX_POLL_TIME = 900` seconds, and the
initial interval is `interval || DEFAULT_POLL_INTERVAL` with the default at
5 seconds. -/
def loginDeviceFlow (expires_in : Nat) (interval : Option Nat)
    (respond : PollOracle) : PollLoopResult :=
  loginLoop (min expires_in 900) respond 0 0 (jsOrNat interval 5)
    (jsOrNat_pos interval 5 (by omega))

-- ===========================================================================
-- Mock Heartwood server (tests/mocks/heartwood-mock.ts)
-- ===========================================================================

/-- Server-side status of a device code. -/
inductive DeviceStatus where
  | pending
  | authorized
  | denied
  | expired
deriving Repr, DecidableEq

/-- One record of the mock's device-code map. -/
structure MockDeviceCode where
  device_code : String
  user_code : String
  client_id : String
  status : DeviceStatus
  user_id : Option String := none
  poll_count : Nat := 0
  created_at : Nat := 0
deriving Repr, DecidableEq

/-- The `mockDeviceCodes` map, keyed by device code. -/
def MockState := String → Option MockDeviceCode

/-- `Map.set` / in-place mutation of the entry stored under a key. -/
def msSet (st : MockState) (k : String) (v : MockDeviceCode) : MockState :=
  fun x => if x = k then some v else st x

/-- Embedding of `authorizeDeviceCode`: if the code exists, set its status to
authorized and record the user id; otherwise do nothing. -/
def authorizeDeviceCode (st : MockState) (deviceCode : String)
    (userId : String := "user-123") : MockState :=
  match st deviceCode with
  | some code => msSet st deviceCode { code with status := .authorized, user_id := some userId }
  | none => st

/-- Embedding of `denyDeviceCode`. -/
def denyDeviceCode (st : MockState) (deviceCode : String) : MockState :=
  match st deviceCode with
  | some code => msSet st deviceCode { code with status := .denied }
  | none => st

/-- Embedding of `expireDeviceCode`. -/
def expireDeviceCode (st : MockState) (deviceCode : String) : MockState :=
  match st deviceCode with
  | some code => msSet st deviceCode { code with status := .expired }
  | none => st

/-- RFC 8628 error body produced by the mock. -/
structure DeviceCodeErrorM where
  error : String
  error_description : String
  interval : Option Nat := none
deriving Repr, DecidableEq

/-- The `descriptions` record inside `createMockDeviceCodeError` (its five
keys are the five error codes of the `DeviceCodeError` type). -/
def errorDescriptionFor (e : String) : String :=
  if e = "authorization_pending" then "User has not yet authorized"
  else if e = "slow_down" then "Polling too frequently"
  else if e = "access_denied" then "User denied authorization"
  else if e = "expired_token" then "Device code expired"
  else "Invalid device code"

/-- Embedding of `createMockDeviceCodeError`. -/
def createMockDeviceCodeError (error : String)
    (description : Option String := none) : DeviceCodeErrorM :=
  { error := error
    error_description := jsOrStr description (errorDescriptionFor error)
    interval := if error = "slow_down" then some 10 else none }

/-- Token payload of the mock, from `createMockTokenResponse` with no
overrides. -/
structure TokenResponseM where
  access_token : String
  token_type : String
  expires_in : Nat
  refresh_token : Option String := none
  scope : Option String := none
deriving Repr, DecidableEq

/-- Embedding of `createMockTokenResponse()`. -/
def createMockTokenResponse : TokenResponseM :=
  { access_token := "mock-access-token-xyz"
    token_type := "Bearer"
    expires_in := 3600
    refresh_token := some ("mock-refresh-token-abc")
    scope := some ("openid email profile") }

/-- `TokenResponse | DeviceCodeError`, the poll response union. -/
inductive MockPollResponse where
  | token (t : TokenResponseM)
  | err (e : DeviceCodeErrorM)
deriving Repr, DecidableEq

/-- Embedding of `getMockPollResponse`: the response is decided by the
stored status; the only state change is the `poll_count` increment. -/
def getMockPollResponse (st : MockState) (deviceCode : String) :
    MockPollResponse × MockState :=
  match st deviceCode with
  | none => (.err (createMockDeviceCodeError ("invalid_grant") (some ("Device code not found"))), st)
  | some code =>
    let st' := msSet st deviceCode { code with poll_count := code.poll_count + 1 }
    match code.status with
    | .authorized => (.token createMockTokenResponse, st')
    | .denied => (.err (createMockDeviceCodeError ("access_denied")), st')
    | .expired => (.err (createMockDeviceCodeError ("expired_token")), st')
    | .pending => (.err (createMockDeviceCodeError ("authorization_pending")), st')

-- ===========================================================================
-- CLI token storage (cli/utils/auth.ts)
-- ===========================================================================

/-- Parsed contents of the credentials file. -/
structure Credentials where
  token : Option String := none
  refreshToken : Option String := none
  expiresAt : Option String := none
deriving Repr, DecidableEq

/-- The three token sources `getToken` consults.  `keychain = none` means
keytar is unavailable; `some (.error ())` means `getPassword` threw;
`some (.ok v)` is the value it returned (null as `none`).  `credsFile` is
what `loadCredentials` does: throw, return null (no file), or return the
parsed record. -/
structure AuthStore where
  keychain : Option (Except Unit (Option String))
  groveToken : Option String
  credsFile : Except Unit (Option Credentials)

/-- Step 3 of `getToken`: the credentials file, with read and parse
failures swallowed. -/
def getTokenFileStep (s : AuthStore) : Option String :=
  match s.credsFile with
  | .ok (some creds) =>
    match creds.token with
    | some t => if !t.isEmpty then some t else none
    | none => none
  | _ => none

/-- Step 2 of `getToken`: the GROVE_TOKEN environment variable. -/
def getTokenEnvStep (s : AuthStore) : Option String :=
  match s.groveToken with
  | some g => if !g.isEmpty then some g else getTokenFileStep s
  | none => getTokenFileStep s

/-- Embedding of `getToken`: keychain, then environment, then file, where
each source is skipped when unavailable, throwing, or holding a falsy
value. -/
def getToken (s : AuthStore) : Option String :=
  match s.keychain with
  | some (.ok (some t)) => if !t.isEmpty then some t else getTokenEnvStep s
  | _ => getTokenEnvStep s

/-- Embedding of `isAuthenticated`: `(await getToken()) !== null`. -/
def isAuthenticated (s : AuthStore) : Bool := (getToken s).isSome

/-- Spec-side reading of "the keychain is available and holds a token". -/
def keychainToken (s : AuthStore) : Option String :=
  match s.keychain with
  | some (.ok (some t)) => if t.isEmpty then none else some t
  | _ => none

/-- Spec-side reading of "the GROVE_TOKEN environment variable is set". -/
def envToken (s : AuthStore) : Option String :=
  match s.groveToken with
  | some g => if g.isEmpty then none else some g
  | none => none

/-- Spec-side reading of "the credentials file holds a token". -/
def fileToken (s : AuthStore) : Option String :=
  match s.credsFile with
  | .ok (some creds) =>
    match creds.token with
    | some t => if t.isEmpty then none else some t
    | none => none
  | _ => none

-- ===========================================================================
-- Support lemmas for the claims
-- ===========================================================================

theorem numFree_str (s : String) : numFree (.str s) = true := rfl

theorem numFree_arr (xs : List Json) : numFree (.arr xs) = numFreeElems xs := rfl

theorem numFree_obj (kvs : List (String × Json)) : numFree (.obj kvs) = numFreeMembers kvs := rfl

theorem numFreeElems_nil : numFreeElems [] = true := rfl

theorem numFreeElems_cons (x : Json) (xs : List Json) :
    numFreeElems (x :: xs) = (numFree x && numFreeElems xs) := rfl

theorem numFreeMembers_nil : numFreeMembers [] = true := rfl

theorem numFreeMembers_cons (kv : String × Json) (kvs : List (String × Json)) :
    numFreeMembers (kv :: kvs) = (numFree kv.2 && numFreeMembers kvs) := rfl

theorem numFreeElems_map_str (l : List String) :
    numFreeElems (l.map (fun s => Json.str s)) = true := by
  induction l with
  | nil => rfl
  | cons a l ih => simp [numFreeElems_cons, numFree_str, ih]

theorem numFree_authReqJson (r : AuthRequest) : numFree (authReqJson r) = true := by
  cases hc : r.codeChallenge <;> cases hm : r.codeChallengeMethod <;>
    simp [authReqJson, numFree_obj, numFreeMembers_cons, numFreeMembers_nil, numFree_str,
      numFree_arr, numFreeElems_map_str, hc, hm]

theorem numFree_stateJson (r : AuthRequest) : numFree (stateJson r) = true := by
  simp [stateJson, numFree_obj, numFreeMembers_cons, numFreeMembers_nil,
    numFree_authReqJson r]

theorem decodeScopeList_map_str (l : List String) :
    decodeScopeList (l.map (fun s => Json.str s)) = some l := by
  induction l with
  | nil => rfl
  | cons a l ih => simp [decodeScopeList, ih]

/-- Decoding inverts serialization of the upstream OAuth request: every
field, the scope list included, comes back exactly. -/
theorem decode_authReqJson (r : AuthRequest) : decodeAuthRequest (authReqJson r) = some r := by
  obtain ⟨rt, ci, ru, sc, st, cc, ccm⟩ := r
  cases cc <;> cases ccm <;>
    simp [decodeAuthRequest, authReqJson, objGet, decodeScopeList_map_str]

theorem stringify_stateJson_ne_empty (r : AuthRequest) :
    (Json.stringify (stateJson r)).isEmpty = false := by
  rw [Bool.eq_false_iff]
  intro hT
  rw [String.isEmpty_iff] at hT
  have hdata := congrArg String.data hT
  rw [show (Json.stringify (stateJson r)).data = render (stateJson r) from rfl] at hdata
  rw [show render (stateJson r) =
      '{' :: (renderMember ("oauthReq", authReqJson r) ++ renderMembers [] ++ ['}'])
    by simp [stateJson, render]] at hdata
  simp at hdata

/-- The `completeAuth` argument record handleCallback builds on the success
path for a state produced by handleAuthorize. -/
def callbackGrant (r : AuthRequest) (tokens : TokenBody) (user : UserBody) :
    CompleteAuthParams :=
  { request := some (authReqJson r)
    userId := user.id
    metadataEmail := user.email
    scope := objGet (authReqJson r) ("scope")
    propsUserId := user.id
    propsEmail := user.email
    propsTenants := user.tenants.getD []
    propsHeartwoodToken := tokens.access_token }

-- ===========================================================================
-- Claims
-- ===========================================================================

/-- C1: For every upstream authorization request, handleAuthorize returns an
HTTP 302 redirect to the Heartwood login entry point whose `state` query
parameter is the serialized upstream request, and handleCallback, given that
same state value (with a code present and successful identity-provider
calls), deserializes it back to exactly the original upstream request: the
grant passed to completeAuth carries the request's JSON, and decoding that
JSON reconstructs client id, scope, redirect URI and the other fields
byte-for-byte. -/
theorem c1_state_roundtrip (env : Env) (r : AuthRequest) (code : String)
    (hcode : code.isEmpty = false) (tokens : TokenBody) (user : UserBody)
    (completeAuth : CompleteAuthParams → String) :
    handleAuthorize env r = .redirect 302 (authorizeUrl env r) ∧
    (authorizeUrl env r).base = "https://heartwood.grove.place/login" ∧
    getParam (authorizeUrl env r).query ("state") = some (Json.stringify (stateJson r)) ∧
    handleCallback ⟨[("code", code), ("state", Json.stringify (stateJson r))]⟩ env
        ⟨.okJson tokens, .okJson user⟩ completeAuth =
      .ok (.grant (callbackGrant r tokens user)
        (completeAuth (callbackGrant r tokens user))) ∧
    (callbackGrant r tokens user).request = some (authReqJson r) ∧
    decodeAuthRequest (authReqJson r) = some r := by
  refine ⟨rfl, ?_, ?_, ?_, rfl, decode_authReqJson r⟩
  · cases hc : r.codeChallenge <;> simp [authorizeUrl, hc]
  · cases hc : r.codeChallenge <;>
      simp [authorizeUrl, setParam, getParam, hc]
  · have hne := stringify_stateJson_ne_empty r
    have hparse := parse_stringify _ (numFree_stateJson r)
    simp [handleCallback, getParam, truthy, jsOrStr, hcode, hne, hparse]
    simp [stateJson, objGet, callbackGrant]

def sampleEnv : Env := { GROVEAUTH_CLIENT_ID := "mycelium", GROVEAUTH_CLIENT_SECRET := "secret" }

def sampleReq : AuthRequest :=
  { responseType := "code", clientId := "claude", redirectUri := "https://claude.ai/cb",
    scope := ["profile", "email"], state := "s1", codeChallenge := some ("ch"),
    codeChallengeMethod := none }

def sampleTokens : TokenBody := { access_token := "tok" }

def sampleUser : UserBody := { id := "u1", email := "u@example.com" }

def sampleComplete : CompleteAuthParams → String := fun _ => "https://claude.ai/done"

/-- Witness for C1 at a concrete request with a PKCE challenge. -/
theorem c1_state_roundtrip_witness :
    ("c" : String).isEmpty = false ∧
    (handleAuthorize sampleEnv sampleReq =
        .redirect 302 (authorizeUrl sampleEnv sampleReq) ∧
      (authorizeUrl sampleEnv sampleReq).base = "https://heartwood.grove.place/login" ∧
      getParam (authorizeUrl sampleEnv sampleReq).query ("state") =
        some (Json.stringify (stateJson sampleReq)) ∧
      handleCallback ⟨[("code", "c"), ("state", Json.stringify (stateJson sampleReq))]⟩
          sampleEnv ⟨.okJson sampleTokens, .okJson sampleUser⟩ sampleComplete =
        .ok (.grant (callbackGrant sampleReq sampleTokens sampleUser)
          (sampleComplete (callbackGrant sampleReq sampleTokens sampleUser))) ∧
      (callbackGrant sampleReq sampleTokens sampleUser).request =
        some (authReqJson sampleReq) ∧
      decodeAuthRequest (authReqJson sampleReq) = some sampleReq) :=
  ⟨rfl, c1_state_roundtrip sampleEnv sampleReq "c" rfl sampleTokens sampleUser
    sampleComplete⟩

/-- C2 counterexample: a callback request with no query parameters at all
lacks the state parameter and carries no error parameter, yet the handler
answers with `missing_code`, not `missing_state` — the code check runs
first. -/
theorem c2_counterexample :
    getParam ([] : List (String × String)) ("state") = none ∧
    getParam ([] : List (String × String)) ("error") = none ∧
    handleCallback ⟨[]⟩ sampleEnv ⟨.rejected, .rejected⟩ (fun _ => "") =
      .ok (.response (.jsonBody 400 ("missing_code") ("No authorization code provided"))) ∧
    ("missing_code" : String) ≠ ("missing_state") :=
  ⟨rfl, rfl, rfl, by decide⟩

/-- C2 amended: a callback request that lacks a state parameter, carries no
error parameter, and carries a (non-empty) code parameter is answered with
HTTP 400 and error `missing_state`. -/
theorem c2_missing_state (req : CallbackRequest) (env : Env) (f : CallbackFetches)
    (ca : CompleteAuthParams → String) (c : String)
    (herr : getParam req.params ("error") = none)
    (hcode : getParam req.params ("code") = some c) (hc : c.isEmpty = false)
    (hstate : getParam req.params ("state") = none) :
    handleCallback req env f ca =
      .ok (.response (.jsonBody 400 ("missing_state") ("No state parameter provided"))) := by
  simp [handleCallback, herr, hcode, hstate, truthy, hc]

/-- Witness for C2 at the request carrying only a code parameter. -/
theorem c2_missing_state_witness :
    getParam [("code", "c")] ("error") = none ∧
    getParam [("code", "c")] ("code") = some ("c") ∧
    getParam [("code", "c")] ("state") = none ∧
    handleCallback ⟨[("code", "c")]⟩ sampleEnv ⟨.rejected, .rejected⟩ (fun _ => "") =
      .ok (.response (.jsonBody 400 ("missing_state") ("No state parameter provided"))) :=
  ⟨rfl, rfl, rfl,
    c2_missing_state ⟨[("code", "c")]⟩ sampleEnv ⟨.rejected, .rejected⟩ (fun _ => "") "c"
      rfl rfl rfl rfl⟩

/-- C3 counterexample: the request `?error=` carries an error query
parameter whose value is the empty string, but the handler treats the empty
string as falsy and proceeds: the body's error field is `missing_code`, not
the incoming value. -/
theorem c3_counterexample :
    getParam [("error", "")] ("error") = some ("") ∧
    handleCallback ⟨[("error", "")]⟩ sampleEnv ⟨.rejected, .rejected⟩ (fun _ => "") =
      .ok (.response (.jsonBody 400 ("missing_code") ("No authorization code provided"))) ∧
    ("missing_code" : String) ≠ ("") :=
  ⟨rfl, rfl, by decide⟩

/-- C3 amended: for every callback request carrying a non-empty error query
parameter, the response is HTTP 400 whose error field equals the incoming
value and whose error_description equals the incoming error_description when
that is present and non-empty (otherwise it falls back to the error value);
the response does not depend on the rest of the request, the
identity-provider calls, or completeAuth. -/
theorem c3_error_passthrough (req : CallbackRequest) (env : Env)
    (f f' : CallbackFetches) (ca ca' : CompleteAuthParams → String) (e : String)
    (herr : getParam req.params ("error") = some e) (he : e.isEmpty = false) :
    handleCallback req env f ca =
      .ok (.response (.jsonBody 400 e (jsOrStr (getParam req.params ("error_description")) e))) ∧
    handleCallback req env f ca = handleCallback req env f' ca' := by
  constructor <;> simp [handleCallback, herr, truthy, he, jsOrStr]

/-- Witness for C3 at the spec's concrete scenario
`?error=access_denied&error_description=User denied`. -/
theorem c3_error_passthrough_witness :
    getParam [("error", "access_denied"), ("error_description", "User denied")] ("error") =
      some ("access_denied") ∧
    jsOrStr (some ("User denied")) ("access_denied") = "User denied" ∧
    handleCallback ⟨[("error", "access_denied"), ("error_description", "User denied")]⟩
        sampleEnv ⟨.rejected, .rejected⟩ (fun _ => "") =
      .ok (.response (.jsonBody 400 ("access_denied")
        (jsOrStr (getParam [("error", "access_denied"), ("error_description", "User denied")]
          ("error_description")) ("access_denied")))) :=
  ⟨rfl, rfl,
    (c3_error_passthrough ⟨[("error", "access_denied"), ("error_description", "User denied")]⟩
      sampleEnv ⟨.rejected, .rejected⟩ ⟨.rejected, .rejected⟩ (fun _ => "") (fun _ => "")
      "access_denied" rfl rfl).1⟩

/-- C4 counterexample: on a well-formed callback (code present, state
parses), a rejected token-exchange fetch is not caught anywhere in
handleCallback — the exception escapes the handler instead of becoming a
structured JSON error response. -/
theorem c4_counterexample :
    Json.parse ("\x7b\x7d") = some (.obj []) ∧
    handleCallback ⟨[("code", "c"), ("state", "\x7b\x7d")]⟩ sampleEnv
      ⟨.rejected, .rejected⟩ (fun _ => "") = .error () :=
  ⟨rfl, rfl⟩

/-- C4 amended: on a well-formed callback, a *non-2xx* token-exchange
response is turned into HTTP 502 `token_exchange_failed`, and a non-2xx
user-info response into HTTP 502 `user_info_failed`; but a *rejected* fetch
(identity provider unreachable) is not caught and propagates out of
handleCallback as an exception. -/
theorem c4_fetch_failures (req : CallbackRequest) (env : Env)
    (ca : CompleteAuthParams → String) (c st : String) (j : Json)
    (ur : FetchResult UserBody)
    (herr : getParam req.params ("error") = none)
    (hcode : getParam req.params ("code") = some c) (hc : c.isEmpty = false)
    (hstate : getParam req.params ("state") = some st) (hs : st.isEmpty = false)
    (hparse : Json.parse st = some j) :
    handleCallback req env ⟨.notOk, ur⟩ ca =
      .ok (.response (.jsonBody 502 ("token_exchange_failed")
        ("Failed to exchange code for tokens"))) ∧
    (∀ tokens, handleCallback req env ⟨.okJson tokens, .notOk⟩ ca =
      .ok (.response (.jsonBody 502 ("user_info_failed")
        ("Failed to fetch user information")))) ∧
    handleCallback req env ⟨.rejected, ur⟩ ca = .error () := by
  refine ⟨?_, fun tokens => ?_, ?_⟩ <;>
    simp [handleCallback, herr, hcode, hstate, truthy, hc, hs, jsOrStr, hparse]

/-- Witness for C4 at a concrete well-formed callback request. -/
theorem c4_fetch_failures_witness :
    getParam [("code", "c"), ("state", "\x7b\x7d")] ("error") = none ∧
    Json.parse ("\x7b\x7d") = some (.obj []) ∧
    handleCallback ⟨[("code", "c"), ("state", "\x7b\x7d")]⟩ sampleEnv
        ⟨.notOk, .rejected⟩ (fun _ => "") =
      .ok (.response (.jsonBody 502 ("token_exchange_failed")
        ("Failed to exchange code for tokens"))) ∧
    (∀ tokens, handleCallback ⟨[("code", "c"), ("state", "\x7b\x7d")]⟩ sampleEnv
        ⟨.okJson tokens, .notOk⟩ (fun _ => "") =
      .ok (.response (.jsonBody 502 ("user_info_failed")
        ("Failed to fetch user information")))) ∧
    handleCallback ⟨[("code", "c"), ("state", "\x7b\x7d")]⟩ sampleEnv
      ⟨.rejected, .rejected⟩ (fun _ => "") = .error () := by
  refine ⟨rfl, rfl, ?_, ?_, ?_⟩
  · exact (c4_fetch_failures ⟨[("code", "c"), ("state", "\x7b\x7d")]⟩ sampleEnv (fun _ => "")
      "c" ("\x7b\x7d") (.obj []) .rejected rfl rfl rfl rfl rfl rfl).1
  · exact (c4_fetch_failures ⟨[("code", "c"), ("state", "\x7b\x7d")]⟩ sampleEnv (fun _ => "")
      "c" ("\x7b\x7d") (.obj []) .rejected rfl rfl rfl rfl rfl rfl).2.1
  · exact (c4_fetch_failures ⟨[("code", "c"), ("state", "\x7b\x7d")]⟩ sampleEnv (fun _ => "")
      "c" ("\x7b\x7d") (.obj []) .rejected rfl rfl rfl rfl rfl rfl).2.2

/-- C5: on the `/authorize` route, a request whose parse fails or whose
client_id is absent (falsy) is answered with HTTP 400 `invalid_request`, and
only with a client_id present does the route hand over to handleAuthorize,
which builds the identity-provider redirect. -/
theorem c5_authorize_client_id (env : Env) (r : AuthRequest) :
    authorizeRoute env .failure =
      .jsonBody 400 ("invalid_request") ("Could not parse OAuth request") ∧
    (r.clientId.isEmpty = true →
      authorizeRoute env (.ok r) = .jsonBody 400 ("invalid_request") ("Missing client_id")) ∧
    (r.clientId.isEmpty = false →
      authorizeRoute env (.ok r) = handleAuthorize env r ∧
      handleAuthorize env r = .redirect 302 (authorizeUrl env r)) := by
  refine ⟨rfl, fun h => ?_, fun h => ⟨?_, rfl⟩⟩ <;> simp [authorizeRoute, h]

/-- Witness for C5 at a request without and a request with a client id. -/
theorem c5_authorize_client_id_witness :
    authorizeRoute sampleEnv (.ok { sampleReq with clientId := "" }) =
      .jsonBody 400 ("invalid_request") ("Missing client_id") ∧
    authorizeRoute sampleEnv (.ok sampleReq) = handleAuthorize sampleEnv sampleReq :=
  ⟨(c5_authorize_client_id sampleEnv { sampleReq with clientId := "" }).2.1 rfl,
    ((c5_authorize_client_id sampleEnv sampleReq).2.2 rfl).1⟩

theorem loginLoop_timeout (maxTime : Nat) (respond : PollOracle)
    (hresp : ∀ n, respond n = some .pending ∨ ∃ iv, respond n = some (.slowDown iv)) :
    ∀ (d k elapsed pollInterval : Nat) (hp : 0 < pollInterval), maxTime - elapsed = d →
      (loginLoop maxTime respond k elapsed pollInterval hp).outcome = .timeout ∧
      maxTime ≤ (loginLoop maxTime respond k elapsed pollInterval hp).elapsed := by
  intro d
  induction d using Nat.strong_induction_on with
  | _ d ih =>
    intro k elapsed pollInterval hp hd
    rw [loginLoop.eq_def]
    by_cases h : elapsed < maxTime
    · rcases hresp k with hk | ⟨iv, hk⟩ <;> simp only [h, if_true, hk] <;>
        exact ih (maxTime - (elapsed + pollInterval)) (by omega) (k + 1) _ _ _ rfl
    · simp only [h, if_false]
      exact ⟨trivial, by omega⟩

theorem loginLoop_pending_bound (maxTime : Nat) (respond : PollOracle)
    (hresp : ∀ n, respond n = some .pending) :
    ∀ (d k elapsed pollInterval : Nat) (hp : 0 < pollInterval), maxTime - elapsed = d →
      elapsed < maxTime + pollInterval →
      (loginLoop maxTime respond k elapsed pollInterval hp).elapsed <
        maxTime + pollInterval := by
  intro d
  induction d using Nat.strong_induction_on with
  | _ d ih =>
    intro k elapsed pollInterval hp hd hb
    rw [loginLoop.eq_def]
    by_cases h : elapsed < maxTime
    · simp only [h, if_true, hresp k]
      exact ih (maxTime - (elapsed + pollInterval)) (by omega) (k + 1) _ _ _ rfl (by omega)
    · simp only [h, if_false]
      exact hb

/-- C6 amended: when every poll returns authorization_pending or slow_down,
the `grove login` polling loop always terminates and reports a timeout, and
the total slept time is at least the ceiling `min(expires_in, 900)` seconds
(the ceiling is enforced); the total can exceed the ceiling by up to one
poll interval — with only authorization_pending responses it stays strictly
below `min(expires_in, 900) + (interval || 5)` — rather than being at most
`min(expires_in, 900)` as claimed. -/
theorem c6_timeout_bound (expires_in : Nat) (interval : Option Nat) (respond : PollOracle)
    (hresp : ∀ n, respond n = some .pending ∨ ∃ iv, respond n = some (.slowDown iv)) :
    (loginDeviceFlow expires_in interval respond).outcome = .timeout ∧
    min expires_in 900 ≤ (loginDeviceFlow expires_in interval respond).elapsed ∧
    ((∀ n, respond n = some .pending) →
      (loginDeviceFlow expires_in interval respond).elapsed <
        min expires_in 900 + jsOrNat interval 5) := by
  have h1 := loginLoop_timeout (min expires_in 900) respond hresp
    (min expires_in 900 - 0) 0 0 (jsOrNat interval 5)
    (jsOrNat_pos interval 5 (by omega)) rfl
  refine ⟨h1.1, h1.2, fun hall => ?_⟩
  exact loginLoop_pending_bound (min expires_in 900) respond hall
    (min expires_in 900 - 0) 0 0 (jsOrNat interval 5)
    (jsOrNat_pos interval 5 (by omega)) rfl
    (by have := jsOrNat_pos interval 5 (by omega); omega)

/-- C6 counterexample: with `expires_in = 3` seconds and a server interval
of 5 seconds, every poll pending, the loop performs one 5-second sleep and
then times out — total elapsed 5 seconds, which exceeds the claimed bound
`min(expires_in, 900) = 3`. -/
theorem c6_counterexample :
    loginDeviceFlow 3 (some 5) (fun _ => some .pending) =
      { outcome := .timeout, elapsed := 5, finalInterval := 5 } ∧
    ¬(5 ≤ min 3 900) := by
  constructor
  · show loginLoop 3 (fun _ => some .pending) 0 0 (jsOrNat (some 5) 5) _ = _
    rw [loginLoop.eq_def]
    norm_num [jsOrNat]
    rw [loginLoop.eq_def]
    norm_num
  · decide

/-- Witness for C6 (amended) at the counterexample's input: the loop times
out, slept at least 3 seconds, and with all polls pending slept less than
3 + 5 seconds. -/
theorem c6_timeout_bound_witness :
    (loginDeviceFlow 3 (some 5) (fun _ => some .pending)).outcome = .timeout ∧
    min 3 900 ≤ (loginDeviceFlow 3 (some 5) (fun _ => some .pending)).elapsed ∧
    ((∀ n, (fun _ : Nat => some PollResponse.pending) n = some .pending) →
      (loginDeviceFlow 3 (some 5) (fun _ => some .pending)).elapsed <
        min 3 900 + jsOrNat (some 5) 5) :=
  c6_timeout_bound 3 (some 5) (fun _ => some .pending) (fun _ => Or.inl rfl)

theorem five_pos : (0 : Nat) < 5 := by decide

/-- C7: one step of the polling loop dispatches exactly as specified:
authorization_pending continues with the same interval, slow_down continues
with the server-provided (non-zero) interval, access_denied and
expired_token stop with the corresponding terminal failure, and a success
response stops with the token material. -/
theorem c7_poll_dispatch (maxTime : Nat) (respond : PollOracle)
    (k elapsed pollInterval : Nat) (hp : 0 < pollInterval) (h : elapsed < maxTime) :
    (respond k = some .pending →
      loginLoop maxTime respond k elapsed pollInterval hp =
        loginLoop maxTime respond (k + 1) (elapsed + pollInterval) pollInterval hp) ∧
    (∀ n, respond k = some (.slowDown (some (n + 1))) →
      loginLoop maxTime respond k elapsed pollInterval hp =
        loginLoop maxTime respond (k + 1) (elapsed + pollInterval) (n + 1) (Nat.succ_pos n)) ∧
    (respond k = some .accessDenied →
      loginLoop maxTime respond k elapsed pollInterval hp =
        { outcome := .denied, elapsed := elapsed + pollInterval,
          finalInterval := pollInterval }) ∧
    (respond k = some .expiredToken →
      loginLoop maxTime respond k elapsed pollInterval hp =
        { outcome := .expired, elapsed := elapsed + pollInterval,
          finalInterval := pollInterval }) ∧
    (∀ t, respond k = some (.success t) →
      loginLoop maxTime respond k elapsed pollInterval hp =
        { outcome := .success t, elapsed := elapsed + pollInterval,
          finalInterval := pollInterval }) := by
  refine ⟨fun hk => ?_, fun n hk => ?_, fun hk => ?_, fun hk => ?_, fun t hk => ?_⟩ <;>
    (rw [loginLoop.eq_def]; simp [h, hk, jsOrNat])

/-- Poll oracle for the C7 witness: pending, then slow_down with interval 7,
then the three terminal outcomes. -/
def c7Oracle : PollOracle := fun k =>
  if k = 0 then some .pending
  else if k = 1 then some (.slowDown (some 7))
  else if k = 2 then some .accessDenied
  else if k = 3 then some .expiredToken
  else some (.success { access_token := "t" })

/-- Witness for C7 at concrete loop states. -/
theorem c7_poll_dispatch_witness :
    (loginLoop 100 c7Oracle 0 0 5 five_pos = loginLoop 100 c7Oracle 1 5 5 five_pos) ∧
    (loginLoop 100 c7Oracle 1 5 5 five_pos =
      loginLoop 100 c7Oracle 2 10 7 (Nat.succ_pos 6)) ∧
    (loginLoop 100 c7Oracle 2 10 7 (Nat.succ_pos 6) =
      { outcome := .denied, elapsed := 17, finalInterval := 7 }) ∧
    (loginLoop 100 c7Oracle 3 10 7 (Nat.succ_pos 6) =
      { outcome := .expired, elapsed := 17, finalInterval := 7 }) ∧
    (loginLoop 100 c7Oracle 4 10 7 (Nat.succ_pos 6) =
      { outcome := .success { access_token := "t" }, elapsed := 17, finalInterval := 7 }) :=
  ⟨(c7_poll_dispatch 100 c7Oracle 0 0 5 five_pos (by decide)).1 rfl,
    (c7_poll_dispatch 100 c7Oracle 1 5 5 five_pos (by decide)).2.1 6 rfl,
    (c7_poll_dispatch 100 c7Oracle 2 10 7 (Nat.succ_pos 6) (by decide)).2.2.1 rfl,
    (c7_poll_dispatch 100 c7Oracle 3 10 7 (Nat.succ_pos 6) (by decide)).2.2.2.1 rfl,
    (c7_poll_dispatch 100 c7Oracle 4 10 7 (Nat.succ_pos 6) (by decide)).2.2.2.2
      { access_token := "t" } rfl⟩

/-- C8: the mock server's poll response is a function of the stored status —
pending yields authorization_pending, authorized yields the token payload,
denied yields access_denied, expired yields expired_token — and polling
never changes any stored status (only the poll counter moves), so no poll
can flap a code back to pending. -/
theorem c8_poll_function_of_status (st : MockState) (dc : String)
    (code : MockDeviceCode) (h : st dc = some code) :
    ((code.status = .pending → (getMockPollResponse st dc).1 =
        .err (createMockDeviceCodeError ("authorization_pending"))) ∧
     (code.status = .authorized →
        (getMockPollResponse st dc).1 = .token createMockTokenResponse) ∧
     (code.status = .denied → (getMockPollResponse st dc).1 =
        .err (createMockDeviceCodeError ("access_denied"))) ∧
     (code.status = .expired → (getMockPollResponse st dc).1 =
        .err (createMockDeviceCodeError ("expired_token")))) ∧
    (∀ x, ((getMockPollResponse st dc).2 x).map (fun c => c.status) =
      (st x).map (fun c => c.status)) := by
  constructor
  · refine ⟨fun hs => ?_, fun hs => ?_, fun hs => ?_, fun hs => ?_⟩ <;>
      simp [getMockPollResponse, h, hs]
  · intro x
    by_cases hx : x = dc
    · subst hx
      cases hcs : code.status <;> simp [getMockPollResponse, h, hcs, msSet]
    · cases hcs : code.status <;> simp [getMockPollResponse, h, hcs, msSet, hx]

/-- The pending device-code record used by the witnesses. -/
def c8Code : MockDeviceCode :=
  { device_code := "d", user_code := "AB", client_id := "grove-cli", status := .pending }

/-- A one-entry mock state with a pending device code, for witnesses. -/
def c8State : MockState := msSet (fun _ => none) ("d") c8Code

/-- Witness for C8 at the one-entry pending state. -/
theorem c8_poll_function_of_status_witness :
    c8State ("d") = some c8Code ∧
    (((c8Code.status = .pending →
        (getMockPollResponse c8State ("d")).1 =
          .err (createMockDeviceCodeError ("authorization_pending"))) ∧
      (c8Code.status = .authorized →
        (getMockPollResponse c8State ("d")).1 = .token createMockTokenResponse) ∧
      (c8Code.status = .denied →
        (getMockPollResponse c8State ("d")).1 =
          .err (createMockDeviceCodeError ("access_denied"))) ∧
      (c8Code.status = .expired →
        (getMockPollResponse c8State ("d")).1 =
          .err (createMockDeviceCodeError ("expired_token")))) ∧
      (∀ x, ((getMockPollResponse c8State ("d")).2 x).map (fun c => c.status) =
        (c8State x).map (fun c => c.status))) :=
  ⟨rfl, c8_poll_function_of_status c8State "d" c8Code rfl⟩

/-- C9 counterexample: after `denyDeviceCode` has put the code in the
terminal state denied, a subsequent `authorizeDeviceCode` is not a no-op —
it overwrites the status to authorized. -/
theorem c9_counterexample :
    ((denyDeviceCode c8State ("d")) ("d")).map (fun c => c.status) = some .denied ∧
    ((authorizeDeviceCode (denyDeviceCode c8State ("d")) ("d") ("u2")) ("d")).map
      (fun c => c.status) = some .authorized ∧
    DeviceStatus.authorized ≠ DeviceStatus.denied :=
  ⟨rfl, rfl, by decide⟩

/-- C9 amended: the mock's transition helpers set the status of an existing
device code unconditionally — a second transition attempt overwrites an
earlier terminal status instead of being a no-op; only for unknown device
codes are the operations no-ops. -/
theorem c9_transitions_overwrite (st : MockState) (dc uid : String)
    (code : MockDeviceCode) (h : st dc = some code) :
    authorizeDeviceCode st dc uid =
      msSet st dc { code with status := .authorized, user_id := some uid } ∧
    denyDeviceCode st dc = msSet st dc { code with status := .denied } ∧
    expireDeviceCode st dc = msSet st dc { code with status := .expired } ∧
    (∀ st' : MockState, st' dc = none →
      authorizeDeviceCode st' dc uid = st' ∧ denyDeviceCode st' dc = st' ∧
      expireDeviceCode st' dc = st') := by
  refine ⟨?_, ?_, ?_, fun st' h' => ⟨?_, ?_, ?_⟩⟩ <;>
    simp [authorizeDeviceCode, denyDeviceCode, expireDeviceCode, h, *]

/-- Witness for C9 at the one-entry pending state. -/
theorem c9_transitions_overwrite_witness :
    authorizeDeviceCode c8State ("d") ("u2") =
      msSet c8State ("d") { c8Code with status := .authorized, user_id := some ("u2") } ∧
    denyDeviceCode c8State ("d") =
      msSet c8State ("d") { c8Code with status := .denied } :=
  ⟨(c9_transitions_overwrite c8State "d" "u2" c8Code rfl).1,
    (c9_transitions_overwrite c8State "d" "u2" c8Code rfl).2.1⟩

/-- C10: getToken consults the keychain, then the GROVE_TOKEN environment
variable, then the credentials file (a source "holds a token" when it is
available, does not throw, and yields a non-empty string — JavaScript
truthiness), it returns null exactly when none of the three holds a token,
and isAuthenticated is true iff some source holds one. -/
theorem c10_token_priority (s : AuthStore) :
    getToken s =
      ((keychainToken s).orElse (fun _ => (envToken s).orElse (fun _ => fileToken s))) ∧
    isAuthenticated s = (getToken s).isSome ∧
    ((getToken s).isSome ↔
      ((keychainToken s).isSome ∨ (envToken s).isSome ∨ (fileToken s).isSome)) := by
  obtain ⟨kc, gt, cf⟩ := s
  have h1 : getToken ⟨kc, gt, cf⟩ =
      ((keychainToken ⟨kc, gt, cf⟩).orElse
        (fun _ => (envToken ⟨kc, gt, cf⟩).orElse (fun _ => fileToken ⟨kc, gt, cf⟩))) := by
    have hfile : getTokenFileStep ⟨kc, gt, cf⟩ = fileToken ⟨kc, gt, cf⟩ := by
      rcases cf with u | c
      · rfl
      · rcases c with - | creds
        · rfl
        · rcases hcr : creds.token with - | t
          · simp [getTokenFileStep, fileToken, hcr]
          · by_cases ht : t.isEmpty <;> simp [getTokenFileStep, fileToken, hcr, ht]
    have henv : getTokenEnvStep ⟨kc, gt, cf⟩ =
        ((envToken ⟨kc, gt, cf⟩).orElse (fun _ => fileToken ⟨kc, gt, cf⟩)) := by
      rcases gt with - | g
      · simp [getTokenEnvStep, envToken, Option.orElse, hfile]
      · by_cases hg : g.isEmpty <;>
          simp [getTokenEnvStep, envToken, Option.orElse, hfile, hg]
    rcases kc with - | ke
    · simp [getToken, keychainToken, Option.orElse, henv]
    · rcases ke with u | kv
      · simp [getToken, keychainToken, Option.orElse, henv]
      · rcases kv with - | t
        · simp [getToken, keychainToken, Option.orElse, henv]
        · by_cases ht : t.isEmpty <;>
            simp [getToken, keychainToken, Option.orElse, henv, ht]
  refine ⟨h1, rfl, ?_⟩
  rw [h1]
  cases keychainToken ⟨kc, gt, cf⟩ <;> cases envToken ⟨kc, gt, cf⟩ <;>
    cases fileToken ⟨kc, gt, cf⟩ <;> simp [Option.orElse]

end Mycelium
